import Mathlib

/-!
Verification of the in-memory chat server (`src/server.js`).

The server keeps three process-wide registries (`users`, `messages`, `chats`),
all JavaScript `Map`s, and processes socket events one at a time.  We embed the
registries as insertion-ordered association lists (matching `Map` iteration
order), each socket-event handler as a pure function from the server state, the
session binding (`currentUserId`, `null` encoded as `none`), the socket id, the
current wall clock and the freshly generated id to the new state, the new
session binding and the list of emitted events.  JavaScript truthiness of
strings (`!s` is true exactly for the empty string and for `null`/`undefined`)
is made explicit via `Option String` and emptiness tests.
-/

/-- Opaque payload of an uploaded-file descriptor attached to a message
(`file` field of a message in `server.js`); its contents are never inspected
by the chat core, so we embed it as a string token. -/
abbrev FileData := String

/-- A record of the `users` map: `userId -> { username, socketId, online, createdAt }`
(`server.js` line 63). -/
structure User where
  username : String
  socketId : String
  online : Bool
  createdAt : Nat
deriving DecidableEq

/-- A record of the `chats` map: `chatId -> { participants, type, name, createdAt, createdBy }`
(`server.js` line 65); direct chats have no `name` and no `createdBy`. -/
structure Chat where
  participants : List String
  type : String
  name : Option String
  createdAt : Nat
  createdBy : Option String
deriving DecidableEq

/-- A stored message (`server.js` lines 236-245). -/
structure Message where
  id : String
  chatId : String
  senderId : String
  senderName : String
  text : String
  file : Option FileData
  timestamp : Nat
  read : Bool
deriving DecidableEq

/-- The per-recipient copy of a message pushed in `new-message` / listed in
`messages-loaded` (`server.js` lines 256-266 and 383-391). -/
structure WireMessage where
  id : String
  text : String
  file : Option FileData
  senderId : String
  senderName : String
  timestamp : Nat
  sent : Bool
deriving DecidableEq

/-- One entry of the chat list sent with `login-success` (`server.js` lines 142-153). -/
structure ChatSummary where
  chatId : String
  name : String
  type : String
  participants : List String
  lastMessage : Option (String × Nat)
  online : Bool
  unread : Nat
deriving DecidableEq

/-- One entry of the `users-list` reply (`server.js` lines 174-178). -/
structure UserEntry where
  userId : String
  username : String
  online : Bool
deriving DecidableEq

/-- Outbound socket events emitted by the handlers, one case per event name. -/
inductive OutMsg where
  | loginSuccess (userId username : String) (chats : List ChatSummary)
  | userOnline (userId username : String)
  | usersList (entries : List UserEntry)
  | chatStarted (chatId name type : String) (participants : List String)
      (online : Bool) (messages : List Message)
  | newChat (chatId name type : String) (participants : List String) (online : Bool)
  | newMessage (chatId : String) (message : WireMessage)
  | userTyping (chatId userId : String) (username : Option String) (isTyping : Bool)
  | messagesLoaded (chatId : String) (messages : List WireMessage)
  | userOffline (userId username : String)
deriving DecidableEq

/-- Delivery target of an outbound event: `io.to(socketId).emit` / `socket.emit`
target a single socket; `socket.broadcast.emit` reaches every connected socket
except the sender's. -/
inductive Target where
  | socket (sid : String)
  | broadcastExcept (sid : String)
deriving DecidableEq

/-- One emitted event: a target and a payload. -/
structure Emit where
  target : Target
  msg : OutMsg
deriving DecidableEq

/-- Insertion-ordered association list embedding a JavaScript `Map`:
`set` updates in place or appends, iteration follows insertion order. -/
abbrev Store (α : Type) : Type := List (String × α)

namespace Store

/-- Embedding of `Map.get`: first (unique) binding of the key, if any. -/
def get? {α : Type} : Store α → String → Option α
  | [], _ => none
  | (k, v) :: rest, key => if k = key then some v else get? rest key

/-- Embedding of `Map.has`. -/
def contains {α : Type} : Store α → String → Bool
  | [], _ => false
  | (k, _) :: rest, key => k = key || contains rest key

/-- Embedding of `Map.set`: overwrite the binding in place if the key is present,
append it otherwise. -/
def set {α : Type} : Store α → String → α → Store α
  | [], key, v => [(key, v)]
  | (k, w) :: rest, key, v =>
      if k = key then (key, v) :: rest else (k, w) :: set rest key v

/-- The keys of the store, in iteration order. -/
def keys {α : Type} (s : Store α) : List String := s.map (fun p => p.1)

end Store

instance {α : Type} [DecidableEq α] : DecidableEq (Store α) :=
  inferInstanceAs (DecidableEq (List (String × α)))

/-- The three in-memory registries (`server.js` lines 63-65). -/
structure ServerState where
  users : Store User
  messages : Store (List Message)
  chats : Store Chat
deriving DecidableEq

/-- JavaScript truthiness of a string: `!s` is false exactly when `s` is nonempty. -/
def truthy (s : String) : Bool := s ≠ ""

/-- JavaScript truthiness of an optional string (absent and `""` are falsy). -/
def textTruthy : Option String → Bool
  | some s => s ≠ ""
  | none => false

/-- JavaScript `a || b` for a possibly-absent string `a` and a string default `b`. -/
def truthyOr (a : Option String) (b : String) : String :=
  match a with
  | some s => if s = "" then b else s
  | none => b

/-- The session binding seen through the guard `if (!currentUserId) return`:
`null` and the empty string are both rejected. -/
def sessTruthy : Option String → Option String
  | some u => if u = "" then none else some u
  | none => none

/-- The helper `getChatId` (`server.js` lines 73-75): the two user ids sorted and joined
with a dash. -/
def getChatId (user1 user2 : String) : String :=
  if user1 ≤ user2 then user1 ++ "-" ++ user2 else user2 ++ "-" ++ user1

/-- First user entry whose `username` equals the given name, with its id
(the lookup loop of the `login` handler, `server.js` lines 105-111). -/
def usernameLookupEntry : Store User → String → Option (String × User)
  | [], _ => none
  | (id, u) :: rest, name =>
      if u.username = name then some (id, u) else usernameLookupEntry rest name

/-- The last-message preview of a chat summary (`server.js` lines 147-150). -/
def lastMessagePreview (msgs : List Message) : Option (String × Nat) :=
  match msgs.getLast? with
  | none => none
  | some m =>
      some (if m.text ≠ "" then m.text
            else if m.file.isSome then "📎 File" else "", m.timestamp)

/-- The chat list computed inside the `login` handler (`server.js` lines 132-155):
one summary per chat the user participates in, in registry iteration order. -/
def summarizeChats (st : ServerState) (userId : String) : List ChatSummary :=
  st.chats.filterMap (fun p =>
    let chatId := p.1
    let chat := p.2
    if userId ∈ chat.participants then
      let chatMessages := (st.messages.get? chatId).getD []
      let otherId := chat.participants.find? (fun q => q ≠ userId)
      let other := otherId.bind (fun q => st.users.get? q)
      some { chatId := chatId
             name := truthyOr chat.name
               (truthyOr (other.map (fun u => u.username)) "Unknown")
             type := chat.type
             participants := chat.participants
             lastMessage := lastMessagePreview chatMessages
             online := (other.map (fun u => u.online)).getD false
             unread := 0 }
    else none)

/-- The `login` handler (`server.js` lines 101-167).  `fresh` is the id
`generateId()` would produce.  Returns the new state, the new session binding
and the emissions (`login-success` to the caller, `user-online` broadcast). -/
def handleLogin (st : ServerState) (sockId : String) (now : Nat) (fresh : String)
    (username : String) : ServerState × Option String × List Emit :=
  match usernameLookupEntry st.users username with
  | none =>
      let st' : ServerState :=
        { st with users := st.users.set fresh ⟨username, sockId, true, now⟩ }
      (st', some fresh,
        [⟨Target.socket sockId, OutMsg.loginSuccess fresh username (summarizeChats st' fresh)⟩,
         ⟨Target.broadcastExcept sockId, OutMsg.userOnline fresh username⟩])
  | some (uid, u) =>
      let st' : ServerState :=
        { st with users := st.users.set uid { u with socketId := sockId, online := true } }
      (st', some uid,
        [⟨Target.socket sockId, OutMsg.loginSuccess uid username (summarizeChats st' uid)⟩,
         ⟨Target.broadcastExcept sockId, OutMsg.userOnline uid username⟩])

/-- The `get-users` handler (`server.js` lines 170-182): every registered user
except the one bound to the session, each with its stored `online` flag. -/
def handleGetUsers (st : ServerState) (sess : Option String) (sockId : String) :
    ServerState × Option String × List Emit :=
  let onlineUsers := st.users.filterMap (fun p =>
    if sess = some p.1 then none
    else some (⟨p.1, p.2.username, p.2.online⟩ : UserEntry))
  (st, sess, [⟨Target.socket sockId, OutMsg.usersList onlineUsers⟩])

/-- The `start-chat` handler (`server.js` lines 185-224). -/
def handleStartChat (st : ServerState) (sess : Option String) (sockId : String)
    (now : Nat) (targetUserId : String) : ServerState × Option String × List Emit :=
  match sessTruthy sess with
  | none => (st, sess, [])
  | some uid =>
    if targetUserId = "" then (st, sess, []) else
    let chatId := getChatId uid targetUserId
    let st' : ServerState :=
      if st.chats.contains chatId then st
      else { st with
              chats := st.chats.set chatId ⟨[uid, targetUserId], "private", none, now, none⟩,
              messages := st.messages.set chatId [] }
    let targetUser := st'.users.get? targetUserId
    let started : Emit :=
      ⟨Target.socket sockId,
        OutMsg.chatStarted chatId
          (truthyOr (targetUser.map (fun u => u.username)) "Unknown") "private"
          [uid, targetUserId]
          ((targetUser.map (fun u => u.online)).getD false)
          ((st'.messages.get? chatId).getD [])⟩
    let notify : List Emit :=
      match targetUser with
      | some tu =>
          if tu.online then
            [⟨Target.socket tu.socketId,
              OutMsg.newChat chatId
                (truthyOr ((st'.users.get? uid).map (fun u => u.username)) "Unknown")
                "private" [uid, targetUserId] true⟩]
          else []
      | none => []
    (st', sess, started :: notify)

/-- The per-recipient copy of a freshly stored message, tagged
`sent = (participantId === currentUserId)` (`server.js` lines 258-266). -/
def wireOf (m : Message) (sent : Bool) : WireMessage :=
  ⟨m.id, m.text, m.file, m.senderId, m.senderName, m.timestamp, sent⟩

/-- The `send-message` handler (`server.js` lines 227-272). -/
def handleSendMessage (st : ServerState) (sess : Option String) (now : Nat)
    (fresh : String) (chatId : String) (text : Option String) (file : Option FileData) :
    ServerState × Option String × List Emit :=
  match sessTruthy sess with
  | none => (st, sess, [])
  | some uid =>
    if chatId = "" then (st, sess, []) else
    if ¬ (textTruthy text || file.isSome) then (st, sess, []) else
    match st.chats.get? chatId with
    | none => (st, sess, [])
    | some chat =>
      if uid ∈ chat.participants then
        let message : Message :=
          { id := fresh, chatId := chatId, senderId := uid,
            senderName := truthyOr ((st.users.get? uid).map (fun u => u.username)) "Unknown",
            text := text.getD "", file := file, timestamp := now, read := false }
        let st' : ServerState :=
          { st with messages :=
              st.messages.set chatId (((st.messages.get? chatId).getD []) ++ [message]) }
        let emits := chat.participants.filterMap (fun p =>
          match st.users.get? p with
          | some u =>
              if u.online && truthy u.socketId then
                some (⟨Target.socket u.socketId,
                  OutMsg.newMessage chatId (wireOf message (p = uid))⟩ : Emit)
              else none
          | none => none)
        (st', sess, emits)
      else (st, sess, [])

/-- The `typing` handler (`server.js` lines 311-333): notifies every other
participant of the chat that is online; note the absence of any membership
check on the sender. -/
def handleTyping (st : ServerState) (sess : Option String) (chatId : String)
    (isTyping : Bool) : ServerState × Option String × List Emit :=
  match sessTruthy sess with
  | none => (st, sess, [])
  | some uid =>
    if chatId = "" then (st, sess, []) else
    match st.chats.get? chatId with
    | none => (st, sess, [])
    | some chat =>
      let emits := chat.participants.filterMap (fun p =>
        if p = uid then none
        else
          match st.users.get? p with
          | some u =>
              if u.online && truthy u.socketId then
                some (⟨Target.socket u.socketId,
                  OutMsg.userTyping chatId uid
                    ((st.users.get? uid).map (fun w => w.username)) isTyping⟩ : Emit)
              else none
          | none => none)
      (st, sess, emits)

/-- The `create-group` handler (`server.js` lines 336-368).  The participant
list is `[currentUserId, ...participantIds]`, a plain concatenation. -/
def handleCreateGroup (st : ServerState) (sess : Option String) (now : Nat)
    (fresh : String) (name : String) (participantIds : List String) :
    ServerState × Option String × List Emit :=
  match sessTruthy sess with
  | none => (st, sess, [])
  | some uid =>
    if name = "" then (st, sess, []) else
    if participantIds = [] then (st, sess, []) else
    let chatId := fresh
    let allParticipants := uid :: participantIds
    let st' : ServerState :=
      { st with
        chats := st.chats.set chatId ⟨allParticipants, "group", some name, now, some uid⟩,
        messages := st.messages.set chatId [] }
    let emits := allParticipants.filterMap (fun p =>
      match st.users.get? p with
      | some u =>
          if u.online && truthy u.socketId then
            some (⟨Target.socket u.socketId,
              OutMsg.newChat chatId name "group" allParticipants false⟩ : Emit)
          else none
      | none => none)
    (st', sess, emits)

/-- The `get-messages` handler (`server.js` lines 371-393). -/
def handleGetMessages (st : ServerState) (sess : Option String) (sockId : String)
    (chatId : String) : ServerState × Option String × List Emit :=
  match sessTruthy sess with
  | none => (st, sess, [])
  | some uid =>
    if chatId = "" then (st, sess, []) else
    match st.chats.get? chatId with
    | none => (st, sess, [])
    | some chat =>
      if uid ∈ chat.participants then
        let chatMessages := (st.messages.get? chatId).getD []
        (st, sess,
          [⟨Target.socket sockId,
            OutMsg.messagesLoaded chatId
              (chatMessages.map (fun m => wireOf m (m.senderId = uid)))⟩])
      else (st, sess, [])

/-- The `disconnect` handler (`server.js` lines 396-412). -/
def handleDisconnect (st : ServerState) (sess : Option String) (sockId : String) :
    ServerState × Option String × List Emit :=
  match sessTruthy sess with
  | none => (st, sess, [])
  | some uid =>
    match st.users.get? uid with
    | none => (st, sess, [])
    | some u =>
      ({ st with users := st.users.set uid { u with online := false } }, sess,
        [⟨Target.broadcastExcept sockId, OutMsg.userOffline uid u.username⟩])

/-- The inbound socket events of the chat core, one case per `socket.on`
registration (file upload excluded: it never touches the registries). -/
inductive Event where
  | login (username : String)
  | getUsers
  | startChat (targetUserId : String)
  | sendMessage (chatId : String) (text : Option String) (file : Option FileData)
  | typing (chatId : String) (isTyping : Bool)
  | createGroup (name : String) (participantIds : List String)
  | getMessages (chatId : String)
  | disconnect
deriving DecidableEq

/-- One atomic processing step of the event loop: dispatch an inbound event to
its handler.  `now` is the wall clock, `fresh` the id `generateId()` would
return for this step. -/
def step (st : ServerState) (sess : Option String) (sockId : String) (now : Nat)
    (fresh : String) : Event → ServerState × Option String × List Emit
  | .login username => handleLogin st sockId now fresh username
  | .getUsers => handleGetUsers st sess sockId
  | .startChat targetUserId => handleStartChat st sess sockId now targetUserId
  | .sendMessage chatId text file => handleSendMessage st sess now fresh chatId text file
  | .typing chatId isTyping => handleTyping st sess chatId isTyping
  | .createGroup name participantIds => handleCreateGroup st sess now fresh name participantIds
  | .getMessages chatId => handleGetMessages st sess sockId chatId
  | .disconnect => handleDisconnect st sess sockId

/-- The stored message list of a chat as the handlers read it
(`messages.get(chatId) || []`). -/
def msgsOf (st : ServerState) (chatId : String) : List Message :=
  (st.messages.get? chatId).getD []

/-! ### Lemmas about the `Store` embedding of a JavaScript `Map` -/

theorem Store.get?_set_self {α : Type} (s : Store α) (k : String) (v : α) :
    (s.set k v).get? k = some v := by
  induction s with
  | nil => simp [Store.set, Store.get?]
  | cons p rest ih =>
    obtain ⟨k', w⟩ := p
    by_cases h : k' = k
    · simp [Store.set, h, Store.get?]
    · simp [Store.set, h, Store.get?, ih]

theorem Store.get?_set_ne {α : Type} (s : Store α) (k key : String) (v : α)
    (h : k ≠ key) : (s.set k v).get? key = s.get? key := by
  induction s with
  | nil => simp [Store.set, Store.get?, h]
  | cons p rest ih =>
    obtain ⟨k', w⟩ := p
    by_cases hk : k' = k
    · simp [Store.set, hk, Store.get?, h]
    · simp only [Store.set, hk, if_false]
      by_cases hy : k' = key
      · simp [Store.get?, hy]
      · simp [Store.get?, hy, ih]

theorem Store.contains_eq_isSome {α : Type} (s : Store α) (key : String) :
    s.contains key = (s.get? key).isSome := by
  induction s with
  | nil => simp [Store.contains, Store.get?]
  | cons p rest ih =>
    obtain ⟨k', w⟩ := p
    by_cases h : k' = key
    · simp [Store.contains, Store.get?, h]
    · simp [Store.contains, Store.get?, h, ih]

theorem Store.contains_set {α : Type} (s : Store α) (k key : String) (v : α) :
    (s.set k v).contains key = true ↔ (k = key ∨ s.contains key = true) := by
  induction s with
  | nil => simp [Store.set, Store.contains]
  | cons p rest ih =>
    obtain ⟨k', w⟩ := p
    by_cases hk : k' = k
    · subst hk
      by_cases hkey : k' = key
      · simp [Store.set, Store.contains, hkey]
      · simp [Store.set, Store.contains, hkey]
    · by_cases hkey : k' = key
      · subst hkey
        simp [Store.set, hk, Store.contains]
      · simp [Store.set, hk, Store.contains, hkey, ih]

/-- Applying `getChatId` to a user with itself gives `u + '-' + u`. -/
theorem getChatId_self (uid : String) : getChatId uid uid = uid ++ "-" ++ uid := by
  simp [getChatId]

/-- C10: an Identified user invoking `start-chat` with their own id is not
rejected: a direct chat with id `uid + "-" + uid` is created whose participant
list contains the caller's id twice, and a `chat-started` reply carrying that
chat is sent. -/
theorem c10_self_direct_chat (st : ServerState) (sess : Option String) (sockId : String)
    (now : Nat) (fresh : String) (uid : String)
    (hsess : sess = some uid) (huid : uid ≠ "")
    (habsent : st.chats.contains (getChatId uid uid) = false) :
    ((step st sess sockId now fresh (.startChat uid)).1.chats.get? (uid ++ "-" ++ uid)
        = some ⟨[uid, uid], "private", none, now, none⟩) ∧
    (∃ n onl ms rest, (step st sess sockId now fresh (.startChat uid)).2.2
        = ⟨Target.socket sockId,
            OutMsg.chatStarted (uid ++ "-" ++ uid) n "private" [uid, uid] onl ms⟩ :: rest) := by
  subst hsess
  have hkey : getChatId uid uid = uid ++ "-" ++ uid := getChatId_self uid
  have habsent' : st.chats.contains (uid ++ "-" ++ uid) = false := by rw [← hkey]; exact habsent
  simp only [step, handleStartChat, sessTruthy, if_neg huid, hkey, habsent']
  simp only [Bool.false_eq_true, if_false, if_neg huid]
  refine ⟨by simp [Store.get?_set_self], ?_⟩
  exact ⟨_, _, _, _, rfl⟩

/-- Concrete instantiation of `c10_self_direct_chat`: user `a` (id `"a"`)
starts a chat with themself on the empty registry state extended with their
own user record. -/
theorem c10_self_direct_chat_witness :
    (((step ⟨[("a", ⟨"alice", "sa", true, 0⟩)], [], []⟩ (some "a") "sa" 3 "f1"
        (.startChat "a")).1.chats.get? ("a" ++ "-" ++ "a")
        = some ⟨["a", "a"], "private", none, 3, none⟩) ∧
    (∃ n onl ms rest, (step ⟨[("a", ⟨"alice", "sa", true, 0⟩)], [], []⟩ (some "a") "sa" 3 "f1"
        (.startChat "a")).2.2
        = ⟨Target.socket "sa",
            OutMsg.chatStarted ("a" ++ "-" ++ "a") n "private" ["a", "a"] onl ms⟩ :: rest)) :=
  c10_self_direct_chat ⟨[("a", ⟨"alice", "sa", true, 0⟩)], [], []⟩ (some "a") "sa" 3 "f1" "a"
    rfl (by decide) (by decide)

/-- The id `getChatId` is order-independent: sorting the pair first makes the id a
function of the unordered pair. -/
theorem getChatId_comm (a b : String) : getChatId a b = getChatId b a := by
  unfold getChatId
  rcases le_total a b with h | h
  · by_cases h2 : b ≤ a
    · have hab : a = b := le_antisymm h h2
      subst hab; simp
    · simp [h, h2]
  · by_cases h2 : a ≤ b
    · have hab : a = b := le_antisymm h2 h
      subst hab; simp
    · simp [h, h2]

/-- C3: `start-chat` (the `getOrCreateDirect` operation) is order-independent
and idempotent: the chat id is symmetric in the two user ids, after the call
the chat with that id exists, the `chat-started` reply always carries exactly
that id, and when the chat already exists the call changes no state (no second
chat, no message-log reset). -/
theorem c3_direct_chat_idempotent (st : ServerState) (sess : Option String)
    (sockId : String) (now : Nat) (fresh : String) (uid target : String)
    (hsess : sessTruthy sess = some uid) (ht : target ≠ "") :
    (getChatId uid target = getChatId target uid) ∧
    ((step st sess sockId now fresh (.startChat target)).1.chats.contains
        (getChatId uid target) = true) ∧
    (st.chats.contains (getChatId uid target) = true →
        (step st sess sockId now fresh (.startChat target)).1 = st) ∧
    (∃ n onl ms rest, (step st sess sockId now fresh (.startChat target)).2.2
        = ⟨Target.socket sockId,
            OutMsg.chatStarted (getChatId uid target) n "private" [uid, target] onl ms⟩
          :: rest) := by
  refine ⟨getChatId_comm uid target, ?_, ?_, ?_⟩
  · by_cases hc : st.chats.contains (getChatId uid target) = true
    · simp [step, handleStartChat, hsess, ht, hc]
    · simp only [Bool.not_eq_true] at hc
      simp [step, handleStartChat, hsess, ht, hc, Store.contains_set]
  · intro hc
    simp [step, handleStartChat, hsess, ht, hc]
  · by_cases hc : st.chats.contains (getChatId uid target) = true
    · simp [step, handleStartChat, hsess, ht, hc]
    · simp only [Bool.not_eq_true] at hc
      simp [step, handleStartChat, hsess, ht, hc]

/-- Concrete instantiation of `c3_direct_chat_idempotent`: users `"a"` and
`"b"` on a state already holding their direct chat. -/
theorem c3_direct_chat_idempotent_witness :
    (getChatId "a" "b" = getChatId "b" "a") ∧
    ((step ⟨[], [("a-b", [])], [("a-b", ⟨["a", "b"], "private", none, 0, none⟩)]⟩
        (some "a") "sa" 4 "f2" (.startChat "b")).1.chats.contains (getChatId "a" "b") = true) ∧
    ((⟨[], [("a-b", [])], [("a-b", ⟨["a", "b"], "private", none, 0, none⟩)]⟩ :
        ServerState).chats.contains (getChatId "a" "b") = true →
        (step ⟨[], [("a-b", [])], [("a-b", ⟨["a", "b"], "private", none, 0, none⟩)]⟩
          (some "a") "sa" 4 "f2" (.startChat "b")).1
          = ⟨[], [("a-b", [])], [("a-b", ⟨["a", "b"], "private", none, 0, none⟩)]⟩) ∧
    (∃ n onl ms rest,
        (step ⟨[], [("a-b", [])], [("a-b", ⟨["a", "b"], "private", none, 0, none⟩)]⟩
          (some "a") "sa" 4 "f2" (.startChat "b")).2.2
        = ⟨Target.socket "sa",
            OutMsg.chatStarted (getChatId "a" "b") n "private" ["a", "b"] onl ms⟩ :: rest) :=
  c3_direct_chat_idempotent
    ⟨[], [("a-b", [])], [("a-b", ⟨["a", "b"], "private", none, 0, none⟩)]⟩
    (some "a") "sa" 4 "f2" "a" "b" (by decide) (by decide)

/-- The `typing` handler never changes the registries or the session binding,
in every guard branch. -/
theorem handleTyping_preserves (st : ServerState) (sess : Option String)
    (chatId : String) (isTyping : Bool) :
    ((handleTyping st sess chatId isTyping).1 = st) ∧
    ((handleTyping st sess chatId isTyping).2.1 = sess) := by
  unfold handleTyping
  cases h : sessTruthy sess with
  | none => simp
  | some uid =>
    by_cases hc : chatId = ""
    · simp [hc]
    · cases hch : st.chats.get? chatId with
      | none => simp [hc, hch]
      | some chat => simp [hc, hch]

/-- C1 counterexample: user `"a"` is Identified and is not a participant of
chat `"c"` (participants `["b"]`), yet their `typing` event is delivered to
participant `"b"`: the handler checks only that the chat exists, not that the
sender is a member. -/
theorem c1_counterexample :
    (("a" : String) ∉ (["b"] : List String)) ∧
    ((step ⟨[("a", ⟨"alice", "sa", true, 0⟩), ("b", ⟨"bob", "sb", true, 0⟩)],
        [("c", [])], [("c", ⟨["b"], "group", some "g", 0, some "b"⟩)]⟩
        (some "a") "sa" 5 "f3" (.typing "c" true)).2.2
      = [⟨Target.socket "sb", OutMsg.userTyping "c" "a" (some "alice") true⟩]) := by
  constructor
  · decide
  · rfl

/-- C1 (amended): a user not in a chat's participant list invoking
`send-message` or `get-messages` on it causes no state change and no emission;
a non-participant's `typing` on an existing chat changes no state either, but
its typing notification is still delivered to the chat's online participants. -/
theorem c1_membership_enforcement (st : ServerState) (sess : Option String)
    (sockId : String) (now : Nat) (fresh chatId uid : String) (chat : Chat)
    (text : Option String) (file : Option FileData) (isTyping : Bool)
    (hsess : sessTruthy sess = some uid)
    (hch : st.chats.get? chatId = some chat)
    (hmem : uid ∉ chat.participants) :
    (step st sess sockId now fresh (.sendMessage chatId text file) = (st, sess, [])) ∧
    (step st sess sockId now fresh (.getMessages chatId) = (st, sess, [])) ∧
    ((step st sess sockId now fresh (.typing chatId isTyping)).1 = st) ∧
    ((step st sess sockId now fresh (.typing chatId isTyping)).2.1 = sess) := by
  refine ⟨?_, ?_, ?_, ?_⟩
  · by_cases hc : chatId = ""
    · simp [step, handleSendMessage, hsess, hc]
    · by_cases hp : (textTruthy text || file.isSome) = true
      · simp [step, handleSendMessage, hsess, hc, hch, hp, hmem]
      · simp [step, handleSendMessage, hsess, hc, hp]
  · by_cases hc : chatId = ""
    · simp [step, handleGetMessages, hsess, hc]
    · simp [step, handleGetMessages, hsess, hc, hch, hmem]
  · exact (handleTyping_preserves st sess chatId isTyping).1
  · exact (handleTyping_preserves st sess chatId isTyping).2

/-- Concrete instantiation of `c1_membership_enforcement`: non-participant
`"a"` acting on chat `"c"` whose only participant is `"b"`. -/
theorem c1_membership_enforcement_witness :
    ((step ⟨[("a", ⟨"alice", "sa", true, 0⟩), ("b", ⟨"bob", "sb", true, 0⟩)],
        [("c", [])], [("c", ⟨["b"], "group", some "g", 0, some "b"⟩)]⟩
        (some "a") "sa" 5 "f3" (.sendMessage "c" (some "hey") none))
      = (⟨[("a", ⟨"alice", "sa", true, 0⟩), ("b", ⟨"bob", "sb", true, 0⟩)],
        [("c", [])], [("c", ⟨["b"], "group", some "g", 0, some "b"⟩)]⟩, some "a", [])) ∧
    ((step ⟨[("a", ⟨"alice", "sa", true, 0⟩), ("b", ⟨"bob", "sb", true, 0⟩)],
        [("c", [])], [("c", ⟨["b"], "group", some "g", 0, some "b"⟩)]⟩
        (some "a") "sa" 5 "f3" (.getMessages "c"))
      = (⟨[("a", ⟨"alice", "sa", true, 0⟩), ("b", ⟨"bob", "sb", true, 0⟩)],
        [("c", [])], [("c", ⟨["b"], "group", some "g", 0, some "b"⟩)]⟩, some "a", [])) ∧
    ((step ⟨[("a", ⟨"alice", "sa", true, 0⟩), ("b", ⟨"bob", "sb", true, 0⟩)],
        [("c", [])], [("c", ⟨["b"], "group", some "g", 0, some "b"⟩)]⟩
        (some "a") "sa" 5 "f3" (.typing "c" true)).1
      = ⟨[("a", ⟨"alice", "sa", true, 0⟩), ("b", ⟨"bob", "sb", true, 0⟩)],
        [("c", [])], [("c", ⟨["b"], "group", some "g", 0, some "b"⟩)]⟩) ∧
    ((step ⟨[("a", ⟨"alice", "sa", true, 0⟩), ("b", ⟨"bob", "sb", true, 0⟩)],
        [("c", [])], [("c", ⟨["b"], "group", some "g", 0, some "b"⟩)]⟩
        (some "a") "sa" 5 "f3" (.typing "c" true)).2.1 = some "a") :=
  c1_membership_enforcement
    ⟨[("a", ⟨"alice", "sa", true, 0⟩), ("b", ⟨"bob", "sb", true, 0⟩)],
      [("c", [])], [("c", ⟨["b"], "group", some "g", 0, some "b"⟩)]⟩
    (some "a") "sa" 5 "f3" "c" "a" ⟨["b"], "group", some "g", 0, some "b"⟩
    (some "hey") none true rfl (by decide) (by decide)

/-- C5 counterexample: participant `"a"` sends a message with both a nonempty
text and an attachment; the handler accepts it and the stored message carries
both, refuting "a message never carries both a text and an attachment". -/
theorem c5_counterexample :
    (msgsOf (step ⟨[("a", ⟨"alice", "sa", true, 0⟩)],
        [("c", [])], [("c", ⟨["a"], "group", some "g", 0, some "a"⟩)]⟩
        (some "a") "sa" 7 "m1" (.sendMessage "c" (some "hi") (some "f9"))).1 "c"
      = [⟨"m1", "c", "a", "alice", "hi", some "f9", 7, false⟩]) ∧
    ((List.any (msgsOf (step ⟨[("a", ⟨"alice", "sa", true, 0⟩)],
        [("c", [])], [("c", ⟨["a"], "group", some "g", 0, some "a"⟩)]⟩
        (some "a") "sa" 7 "m1" (.sendMessage "c" (some "hi") (some "f9"))).1 "c")
        (fun m => decide (m.text ≠ "") && m.file.isSome)) = true) := by
  constructor
  · rfl
  · rfl

/-- C5 (amended): a `send-message` with text and attachment both absent or
empty is rejected without appending to the message log and without any
emission; but only *at least* one of text/attachment is required — a message
carrying both a nonempty text and an attachment is accepted and stored with
both. -/
theorem c5_validation (st : ServerState) (sess : Option String) (sockId : String)
    (now : Nat) (fresh chatId : String) (text : Option String) (file : Option FileData)
    (htext : textTruthy text = false) (hfile : file = none) :
    step st sess sockId now fresh (.sendMessage chatId text file) = (st, sess, []) := by
  cases h : sessTruthy sess with
  | none => simp [step, handleSendMessage, h]
  | some uid =>
    by_cases hc : chatId = ""
    · simp [step, handleSendMessage, h, hc]
    · simp [step, handleSendMessage, h, hc, htext, hfile]

/-- Concrete instantiation of `c5_validation`: a `send-message` with empty
text and no attachment leaves the state untouched and emits nothing. -/
theorem c5_validation_witness :
    step ⟨[("a", ⟨"alice", "sa", true, 0⟩)],
        [("c", [])], [("c", ⟨["a"], "group", some "g", 0, some "a"⟩)]⟩
        (some "a") "sa" 7 "m1" (.sendMessage "c" (some "") none)
      = (⟨[("a", ⟨"alice", "sa", true, 0⟩)],
        [("c", [])], [("c", ⟨["a"], "group", some "g", 0, some "a"⟩)]⟩, some "a", []) :=
  c5_validation ⟨[("a", ⟨"alice", "sa", true, 0⟩)],
      [("c", [])], [("c", ⟨["a"], "group", some "g", 0, some "a"⟩)]⟩
    (some "a") "sa" 7 "m1" "c" (some "") none (by decide) rfl

instance {α : Type} : Membership (String × α) (Store α) :=
  inferInstanceAs (Membership (String × α) (List (String × α)))

/-- C8 counterexample: with `"b"` registered but offline, caller `"a"` invoking
`get-users` receives an entry for `"b"`: the handler filters only the caller
out, never the offline users. -/
theorem c8_counterexample :
    (((⟨[("a", ⟨"alice", "sa", true, 0⟩), ("b", ⟨"bob", "sb", false, 0⟩)], [], []⟩ :
        ServerState).users.get? "b").map (fun u => u.online) = some false) ∧
    ((step ⟨[("a", ⟨"alice", "sa", true, 0⟩), ("b", ⟨"bob", "sb", false, 0⟩)], [], []⟩
        (some "a") "sa" 0 "f4" .getUsers).2.2
      = [⟨Target.socket "sa", OutMsg.usersList [⟨"b", "bob", false⟩]⟩]) := by
  constructor
  · rfl
  · rfl

/-- C8 (amended): `get-users` replies to the caller with one entry per
registered user other than the caller — online and offline alike — each entry
carrying the user's stored `online` flag; the caller never appears. -/
theorem c8_list_users (st : ServerState) (sess : Option String) (sockId : String)
    (now : Nat) (fresh : String) (caller : String) (hsess : sess = some caller) :
    ∃ entries,
      (step st sess sockId now fresh .getUsers
        = (st, sess, [⟨Target.socket sockId, OutMsg.usersList entries⟩])) ∧
      (∀ p u, (p, u) ∈ st.users → p ≠ caller →
        (⟨p, u.username, u.online⟩ : UserEntry) ∈ entries) ∧
      (∀ en ∈ entries, en.userId ≠ caller ∧
        ∃ u, (en.userId, u) ∈ st.users ∧ en.username = u.username ∧ en.online = u.online) := by
  subst hsess
  refine ⟨_, rfl, ?_, ?_⟩
  · intro p u hmem hne
    refine List.mem_filterMap.mpr ⟨(p, u), hmem, ?_⟩
    have hcond : ¬ ((some caller : Option String) = some p) :=
      fun h => hne (Option.some_inj.mp h).symm
    simp [hcond]
  · intro en hen
    obtain ⟨⟨p, u⟩, hmem, hf⟩ := List.mem_filterMap.mp hen
    by_cases hp : (some caller : Option String) = some p
    · simp [hp] at hf
    · rw [if_neg hp] at hf
      have hne : p ≠ caller := fun h => hp (by rw [h])
      cases hf
      exact ⟨hne, u, hmem, rfl, rfl⟩

/-- Concrete instantiation of `c8_list_users` at a two-user registry. -/
theorem c8_list_users_witness :
    ∃ entries,
      (step ⟨[("a", ⟨"alice", "sa", true, 0⟩), ("b", ⟨"bob", "sb", false, 0⟩)], [], []⟩
          (some "a") "sa" 0 "f4" .getUsers
        = (⟨[("a", ⟨"alice", "sa", true, 0⟩), ("b", ⟨"bob", "sb", false, 0⟩)], [], []⟩,
           some "a", [⟨Target.socket "sa", OutMsg.usersList entries⟩])) ∧
      (∀ p u, (p, u) ∈ (⟨[("a", ⟨"alice", "sa", true, 0⟩), ("b", ⟨"bob", "sb", false, 0⟩)],
          [], []⟩ : ServerState).users → p ≠ "a" →
        (⟨p, u.username, u.online⟩ : UserEntry) ∈ entries) ∧
      (∀ en ∈ entries, en.userId ≠ "a" ∧
        ∃ u, (en.userId, u) ∈ (⟨[("a", ⟨"alice", "sa", true, 0⟩),
            ("b", ⟨"bob", "sb", false, 0⟩)], [], []⟩ : ServerState).users ∧
          en.username = u.username ∧ en.online = u.online) :=
  c8_list_users ⟨[("a", ⟨"alice", "sa", true, 0⟩), ("b", ⟨"bob", "sb", false, 0⟩)], [], []⟩
    (some "a") "sa" 0 "f4" "a" rfl

/-- C9 counterexample: the session is already Identified as user `"a"`, yet a
second `login` with the name `"bob"` rebinds the session to a freshly created
user id, mutates the user registry and emits both a `login-success` reply and
a `user-online` broadcast — nothing about it is a no-op. -/
theorem c9_counterexample :
    ((step ⟨[("a", ⟨"alice", "sa", true, 0⟩)], [], []⟩ (some "a") "s2" 9 "u2"
        (.login "bob")).2.1 = some "u2") ∧
    (¬ ((step ⟨[("a", ⟨"alice", "sa", true, 0⟩)], [], []⟩ (some "a") "s2" 9 "u2"
        (.login "bob")).2.1 = some "a")) ∧
    ((step ⟨[("a", ⟨"alice", "sa", true, 0⟩)], [], []⟩ (some "a") "s2" 9 "u2"
        (.login "bob")).2.2
      = [⟨Target.socket "s2", OutMsg.loginSuccess "u2" "bob" []⟩,
         ⟨Target.broadcastExcept "s2", OutMsg.userOnline "u2" "bob"⟩]) ∧
    (¬ ((step ⟨[("a", ⟨"alice", "sa", true, 0⟩)], [], []⟩ (some "a") "s2" 9 "u2"
        (.login "bob")).1 = ⟨[("a", ⟨"alice", "sa", true, 0⟩)], [], []⟩)) := by
  refine ⟨rfl, by decide, rfl, by decide⟩

/-- C9 (amended): a `login` received while the session is already Identified is
processed exactly like a first login — its outcome (new state, new session
binding, emissions) is independent of the current session binding, it always
rebinds the session to the resolved user id and always emits the
`login-success` reply and the `user-online` broadcast. -/
theorem c9_login_any_session (st : ServerState) (sess sess' : Option String)
    (sockId : String) (now : Nat) (fresh : String) (username : String) :
    (step st sess sockId now fresh (.login username)
      = step st sess' sockId now fresh (.login username)) ∧
    ((step st sess sockId now fresh (.login username)).2.2.length = 2) ∧
    (∃ uid, (step st sess sockId now fresh (.login username)).2.1 = some uid) := by
  refine ⟨rfl, ?_, ?_⟩
  · cases h : usernameLookupEntry st.users username with
    | none => simp [step, handleLogin, h]
    | some p =>
      obtain ⟨uid, u⟩ := p
      simp [step, handleLogin, h]
  · cases h : usernameLookupEntry st.users username with
    | none => exact ⟨fresh, by simp [step, handleLogin, h]⟩
    | some p =>
      obtain ⟨uid, u⟩ := p
      exact ⟨uid, by simp [step, handleLogin, h]⟩

instance {α : Type} : Append (Store α) :=
  inferInstanceAs (Append (List (String × α)))

/-- Setting an absent key appends the binding at the end of the map. -/
theorem Store.set_absent {α : Type} (s : Store α) (k : String) (v : α)
    (h : s.contains k = false) : s.set k v = s ++ [(k, v)] := by
  induction s with
  | nil => simp [Store.set]
  | cons p rest ih =>
    obtain ⟨k', w⟩ := p
    simp only [Store.contains, Bool.or_eq_false_iff] at h
    obtain ⟨h1, h2⟩ := h
    have hk : k' ≠ k := by
      intro hkk
      rw [hkk] at h1
      simp at h1
    have hrest := ih h2
    show Store.set ((k', w) :: rest) k v = ((k', w) :: rest) ++ [(k, v)]
    simp only [Store.set, hk, if_false]
    rw [hrest]
    rfl

/-- Setting a present key leaves the key sequence of the map unchanged. -/
theorem Store.keys_set_present {α : Type} (s : Store α) (k : String) (v : α)
    (h : s.contains k = true) : (s.set k v).keys = s.keys := by
  induction s with
  | nil => simp [Store.contains] at h
  | cons p rest ih =>
    obtain ⟨k', w⟩ := p
    by_cases hk : k' = k
    · subst hk
      simp [Store.set, Store.keys]
    · simp only [Store.contains, Bool.or_eq_true, decide_eq_true_eq] at h
      rcases h with h | h
      · exact absurd h hk
      · simp [Store.set, hk, Store.keys] at ih ⊢
        exact ih h

/-- A key just appended at the end of a store is contained in it. -/
theorem Store.contains_append_single {α : Type} (s : Store α) (k : String) (v : α) :
    (s ++ [(k, v)]).contains k = true := by
  induction s with
  | nil => simp [Store.contains]
  | cons p rest ih =>
    obtain ⟨k', w⟩ := p
    show (k' = k || Store.contains (rest ++ [(k, v)]) k) = true
    simp [ih]

/-- Username lookup over a store extended with one user: falls through to the
new entry exactly when the old store has no user with that name. -/
theorem usernameLookupEntry_append (us : Store User) (name : String) (x : String × User)
    (h : usernameLookupEntry us name = none) :
    usernameLookupEntry (us ++ [x]) name
      = if x.2.username = name then some x else none := by
  induction us with
  | nil =>
    obtain ⟨xid, xu⟩ := x
    show usernameLookupEntry [(xid, xu)] name = _
    simp [usernameLookupEntry]
  | cons p rest ih =>
    obtain ⟨id, u⟩ := p
    by_cases hu : u.username = name
    · simp [usernameLookupEntry, hu] at h
    · simp only [usernameLookupEntry, hu, if_false] at h
      have := ih h
      show usernameLookupEntry ((id, u) :: (rest ++ [x])) name = _
      simpa [usernameLookupEntry, hu] using this

/-- C6: logging in resolves a display name to a stable user id.  When no user
has the name, a fresh user is appended under the fresh id; a second login with
the same name, from a different connection, resolves to that same id, adds no
user (the key sequence is unchanged), overwrites the stored connection handle
with the new socket and keeps `online = true`. -/
theorem c6_login_stable_id (st : ServerState) (sess sess2 : Option String)
    (sockId : String) (now : Nat) (fresh : String) (name : String)
    (sockId2 : String) (now2 : Nat) (fresh2 : String)
    (hnone : usernameLookupEntry st.users name = none)
    (hfresh : st.users.contains fresh = false) :
    ((step st sess sockId now fresh (.login name)).2.1 = some fresh) ∧
    ((step st sess sockId now fresh (.login name)).1.users
      = st.users ++ [(fresh, ⟨name, sockId, true, now⟩)]) ∧
    ((step (step st sess sockId now fresh (.login name)).1 sess2 sockId2 now2 fresh2
        (.login name)).2.1 = some fresh) ∧
    ((step (step st sess sockId now fresh (.login name)).1 sess2 sockId2 now2 fresh2
        (.login name)).1.users.get? fresh = some ⟨name, sockId2, true, now⟩) ∧
    (Store.keys (step (step st sess sockId now fresh (.login name)).1 sess2 sockId2 now2 fresh2
        (.login name)).1.users
      = Store.keys (step st sess sockId now fresh (.login name)).1.users) := by
  have h1 : (step st sess sockId now fresh (.login name)).1.users
      = st.users ++ [(fresh, ⟨name, sockId, true, now⟩)] := by
    have hset := Store.set_absent st.users fresh (⟨name, sockId, true, now⟩ : User) hfresh
    simp [step, handleLogin, hnone, hset]
  have hlook2 : usernameLookupEntry (step st sess sockId now fresh (.login name)).1.users name
      = some (fresh, ⟨name, sockId, true, now⟩) := by
    rw [h1, usernameLookupEntry_append st.users name _ hnone]
    simp
  have hcont2 : (step st sess sockId now fresh (.login name)).1.users.contains fresh = true := by
    rw [h1]
    exact Store.contains_append_single st.users fresh _
  refine ⟨by simp [step, handleLogin, hnone], h1, ?_, ?_, ?_⟩
  · generalize hg : (step st sess sockId now fresh (.login name)).1 = st1 at hlook2 ⊢
    simp [step, handleLogin, hlook2]
  · generalize hg : (step st sess sockId now fresh (.login name)).1 = st1 at hlook2 ⊢
    simp [step, handleLogin, hlook2, Store.get?_set_self]
  · generalize hg : (step st sess sockId now fresh (.login name)).1 = st1 at hlook2 hcont2 ⊢
    simp [step, handleLogin, hlook2]
    exact Store.keys_set_present _ fresh _ hcont2

/-- Concrete instantiation of `c6_login_stable_id`: `"carol"` logs in twice
from two sockets on an initially empty registry. -/
theorem c6_login_stable_id_witness :
    ((step ⟨[], [], []⟩ none "s1" 1 "u1" (.login "carol")).2.1 = some "u1") ∧
    ((step ⟨[], [], []⟩ none "s1" 1 "u1" (.login "carol")).1.users
      = [] ++ [("u1", ⟨"carol", "s1", true, 1⟩)]) ∧
    ((step (step ⟨[], [], []⟩ none "s1" 1 "u1" (.login "carol")).1 none "s2" 2 "u9"
        (.login "carol")).2.1 = some "u1") ∧
    ((step (step ⟨[], [], []⟩ none "s1" 1 "u1" (.login "carol")).1 none "s2" 2 "u9"
        (.login "carol")).1.users.get? "u1" = some ⟨"carol", "s2", true, 1⟩) ∧
    (Store.keys (step (step ⟨[], [], []⟩ none "s1" 1 "u1" (.login "carol")).1 none "s2" 2 "u9"
        (.login "carol")).1.users
      = Store.keys (step ⟨[], [], []⟩ none "s1" 1 "u1" (.login "carol")).1.users) :=
  c6_login_stable_id ⟨[], [], []⟩ none none "s1" 1 "u1" "carol" "s2" 2 "u9" rfl rfl

/-- The delivery guard of the fan-out loops
(`participant && participant.online && participant.socketId`): the user id
resolves and is online with a truthy connection handle. -/
def onlineSock (st : ServerState) (p : String) : Bool :=
  match st.users.get? p with
  | some u => u.online && truthy u.socketId
  | none => false

/-- A `filterMap` that keeps exactly the elements satisfying a Boolean guard
produces as many elements as the corresponding `filter`. -/
theorem length_filterMap_eq_length_filter {α β : Type} (f : α → Option β)
    (c : α → Bool) (l : List α) (h : ∀ a, (f a).isSome = c a) :
    (l.filterMap f).length = (l.filter c).length := by
  induction l with
  | nil => simp
  | cons a rest ih =>
    cases hfa : f a with
    | none =>
      have hca : c a = false := by rw [← h a, hfa]; rfl
      simp [List.filterMap_cons, hfa, hca, ih]
    | some b =>
      have hca : c a = true := by rw [← h a, hfa]; rfl
      simp [List.filterMap_cons, hfa, hca, ih]

/-- C7 counterexample: `"a"` creates group `"Team"` listing themself among the
members while `"a"` and `"b"` are online: the stored participant list is
`["a", "a", "b"]` — the creator duplicated — and the creator's socket receives
the `new chat` notification twice. -/
theorem c7_counterexample :
    ((step ⟨[("a", ⟨"alice", "sa", true, 0⟩), ("b", ⟨"bob", "sb", true, 0⟩)], [], []⟩
        (some "a") "sa" 3 "g1" (.createGroup "Team" ["a", "b"])).1.chats.get? "g1"
      = some ⟨["a", "a", "b"], "group", some "Team", 3, some "a"⟩) ∧
    (((step ⟨[("a", ⟨"alice", "sa", true, 0⟩), ("b", ⟨"bob", "sb", true, 0⟩)], [], []⟩
        (some "a") "sa" 3 "g1" (.createGroup "Team" ["a", "b"])).2.2.count
        ⟨Target.socket "sa", OutMsg.newChat "g1" "Team" "group" ["a", "a", "b"] false⟩) = 2) := by
  constructor
  · rfl
  · rfl

/-- C7 (amended): `create-group` with an empty name or empty member list is a
silent no-op; otherwise it registers a chat under the fresh id with kind
`group`, the given name, and participant list `creatorId :: memberIds` — a
plain concatenation in which the creator is duplicated when listed among the
members — initializes its message log empty, and emits one `new chat`
notification per *occurrence* of an online member in that list (so duplicated
entries are notified once per occurrence). -/
theorem c7_create_group (st : ServerState) (sess : Option String) (sockId : String)
    (now : Nat) (fresh : String) (name : String) (ids : List String) (uid : String)
    (hsess : sessTruthy sess = some uid) :
    ((name = "" ∨ ids = []) →
      step st sess sockId now fresh (.createGroup name ids) = (st, sess, [])) ∧
    (name ≠ "" → ids ≠ [] →
      (((step st sess sockId now fresh (.createGroup name ids)).1.chats.get? fresh
          = some ⟨uid :: ids, "group", some name, now, some uid⟩) ∧
       ((step st sess sockId now fresh (.createGroup name ids)).1.messages.get? fresh
          = some []) ∧
       ((step st sess sockId now fresh (.createGroup name ids)).2.2.length
          = ((uid :: ids).filter (fun p => onlineSock st p)).length) ∧
       (∀ e ∈ (step st sess sockId now fresh (.createGroup name ids)).2.2,
          ∃ p ∈ uid :: ids, ∃ u, st.users.get? p = some u ∧ u.online = true ∧
            truthy u.socketId = true ∧
            e = ⟨Target.socket u.socketId, OutMsg.newChat fresh name "group" (uid :: ids) false⟩) ∧
       (∀ p ∈ uid :: ids, ∀ u, st.users.get? p = some u → u.online = true →
          truthy u.socketId = true →
          (⟨Target.socket u.socketId, OutMsg.newChat fresh name "group" (uid :: ids) false⟩ : Emit)
            ∈ (step st sess sockId now fresh (.createGroup name ids)).2.2))) := by
  constructor
  · rintro (h | h) <;> simp [step, handleCreateGroup, hsess, h]
  · intro hname hids
    refine ⟨?_, ?_, ?_, ?_, ?_⟩
    · simp [step, handleCreateGroup, hsess, hname, hids, Store.get?_set_self]
    · simp [step, handleCreateGroup, hsess, hname, hids, Store.get?_set_self]
    · simp only [step, handleCreateGroup, hsess]
      rw [if_neg hname, if_neg hids]
      apply length_filterMap_eq_length_filter
      intro p
      cases hp : st.users.get? p with
      | none => simp [onlineSock, hp]
      | some u =>
        simp only [onlineSock, hp]
        cases hb : (u.online && truthy u.socketId) <;> simp [hb]
    · intro e he
      simp only [step, handleCreateGroup, hsess] at he
      rw [if_neg hname, if_neg hids] at he
      obtain ⟨p, hp, hf⟩ := List.mem_filterMap.mp he
      refine ⟨p, hp, ?_⟩
      cases hu : st.users.get? p with
      | none => rw [hu] at hf; exact absurd hf (by simp)
      | some u =>
        rw [hu] at hf
        by_cases ho : (u.online && truthy u.socketId) = true
        · simp only [ho, if_true] at hf
          have he2 : e = ⟨Target.socket u.socketId,
              OutMsg.newChat fresh name "group" (uid :: ids) false⟩ :=
            (Option.some_inj.mp hf).symm
          subst he2
          obtain ⟨h1, h2⟩ := Bool.and_eq_true_iff.mp ho
          exact ⟨u, rfl, h1, h2, rfl⟩
        · simp only [ho, if_false] at hf
          exact absurd hf (by simp)
    · intro p hp u hu honline hsock
      simp only [step, handleCreateGroup, hsess]
      rw [if_neg hname, if_neg hids]
      refine List.mem_filterMap.mpr ⟨p, hp, ?_⟩
      rw [hu]
      have ho : (u.online && truthy u.socketId) = true := by
        rw [honline, hsock]; rfl
      simp only [ho, if_true]

/-- Concrete instantiation of `c7_create_group`: `"a"` creates `"Team"` with
members `["a", "b"]` while both users are online. -/
theorem c7_create_group_witness :
    ((("Team" : String) = "" ∨ (["a", "b"] : List String) = []) →
      step ⟨[("a", ⟨"alice", "sa", true, 0⟩), ("b", ⟨"bob", "sb", true, 0⟩)], [], []⟩
        (some "a") "sa" 3 "g1" (.createGroup "Team" ["a", "b"])
        = (⟨[("a", ⟨"alice", "sa", true, 0⟩), ("b", ⟨"bob", "sb", true, 0⟩)], [], []⟩,
           some "a", [])) ∧
    (("Team" : String) ≠ "" → (["a", "b"] : List String) ≠ [] →
      (((step ⟨[("a", ⟨"alice", "sa", true, 0⟩), ("b", ⟨"bob", "sb", true, 0⟩)], [], []⟩
          (some "a") "sa" 3 "g1" (.createGroup "Team" ["a", "b"])).1.chats.get? "g1"
          = some ⟨"a" :: ["a", "b"], "group", some "Team", 3, some "a"⟩) ∧
       ((step ⟨[("a", ⟨"alice", "sa", true, 0⟩), ("b", ⟨"bob", "sb", true, 0⟩)], [], []⟩
          (some "a") "sa" 3 "g1" (.createGroup "Team" ["a", "b"])).1.messages.get? "g1"
          = some []) ∧
       ((step ⟨[("a", ⟨"alice", "sa", true, 0⟩), ("b", ⟨"bob", "sb", true, 0⟩)], [], []⟩
          (some "a") "sa" 3 "g1" (.createGroup "Team" ["a", "b"])).2.2.length
          = (("a" :: ["a", "b"]).filter (fun p => onlineSock
              ⟨[("a", ⟨"alice", "sa", true, 0⟩), ("b", ⟨"bob", "sb", true, 0⟩)], [], []⟩ p)).length) ∧
       (∀ e ∈ (step ⟨[("a", ⟨"alice", "sa", true, 0⟩), ("b", ⟨"bob", "sb", true, 0⟩)], [], []⟩
          (some "a") "sa" 3 "g1" (.createGroup "Team" ["a", "b"])).2.2,
          ∃ p ∈ "a" :: ["a", "b"], ∃ u,
            (⟨[("a", ⟨"alice", "sa", true, 0⟩), ("b", ⟨"bob", "sb", true, 0⟩)], [], []⟩ :
              ServerState).users.get? p = some u ∧ u.online = true ∧
            truthy u.socketId = true ∧
            e = ⟨Target.socket u.socketId,
                  OutMsg.newChat "g1" "Team" "group" ("a" :: ["a", "b"]) false⟩) ∧
       (∀ p ∈ "a" :: ["a", "b"], ∀ u,
          (⟨[("a", ⟨"alice", "sa", true, 0⟩), ("b", ⟨"bob", "sb", true, 0⟩)], [], []⟩ :
            ServerState).users.get? p = some u → u.online = true →
          truthy u.socketId = true →
          (⟨Target.socket u.socketId,
              OutMsg.newChat "g1" "Team" "group" ("a" :: ["a", "b"]) false⟩ : Emit)
            ∈ (step ⟨[("a", ⟨"alice", "sa", true, 0⟩), ("b", ⟨"bob", "sb", true, 0⟩)], [], []⟩
                (some "a") "sa" 3 "g1" (.createGroup "Team" ["a", "b"])).2.2))) :=
  c7_create_group
    ⟨[("a", ⟨"alice", "sa", true, 0⟩), ("b", ⟨"bob", "sb", true, 0⟩)], [], []⟩
    (some "a") "sa" 3 "g1" "Team" ["a", "b"] "a" rfl

/-- C2: a valid `send-message` in a chat fans the `new-message` event out to
exactly the chat's participants that are online with a live connection handle
(the sender included when online), never to anyone else, and each delivered
copy is tagged `sent = (recipient == sender)` and carries the sender's id. -/
theorem c2_send_message_fanout (st : ServerState) (sess : Option String)
    (sockId : String) (now : Nat) (fresh chatId uid : String) (chat : Chat)
    (text : Option String) (file : Option FileData)
    (hsess : sessTruthy sess = some uid)
    (hchat : st.chats.get? chatId = some chat)
    (hmem : uid ∈ chat.participants)
    (hcid : chatId ≠ "")
    (hpayload : (textTruthy text || file.isSome) = true) :
    (∀ p, p ∈ chat.participants → ∀ u, st.users.get? p = some u → u.online = true →
      truthy u.socketId = true →
      ∃ wm : WireMessage,
        (⟨Target.socket u.socketId, OutMsg.newMessage chatId wm⟩ : Emit)
          ∈ (step st sess sockId now fresh (.sendMessage chatId text file)).2.2 ∧
        wm.sent = decide (p = uid) ∧ wm.senderId = uid) ∧
    (∀ e ∈ (step st sess sockId now fresh (.sendMessage chatId text file)).2.2,
      ∃ p, p ∈ chat.participants ∧ ∃ u, st.users.get? p = some u ∧ u.online = true ∧
        truthy u.socketId = true ∧
        e = ⟨Target.socket u.socketId,
              OutMsg.newMessage chatId
                (wireOf ⟨fresh, chatId, uid,
                  truthyOr ((st.users.get? uid).map (fun w => w.username)) "Unknown",
                  text.getD "", file, now, false⟩ (p = uid))⟩) := by
  have hred : (step st sess sockId now fresh (.sendMessage chatId text file)).2.2
      = chat.participants.filterMap (fun p =>
          match st.users.get? p with
          | some u =>
              if u.online && truthy u.socketId then
                some (⟨Target.socket u.socketId,
                  OutMsg.newMessage chatId (wireOf ⟨fresh, chatId, uid,
                    truthyOr ((st.users.get? uid).map (fun w => w.username)) "Unknown",
                    text.getD "", file, now, false⟩ (p = uid))⟩ : Emit)
              else none
          | none => none) := by
    simp only [step, handleSendMessage, hsess]
    rw [if_neg hcid, if_neg (not_not_intro hpayload), hchat]
    simp only [hmem, if_true]
  constructor
  · intro p hp u hu ho hs
    refine ⟨wireOf ⟨fresh, chatId, uid,
        truthyOr ((st.users.get? uid).map (fun w => w.username)) "Unknown",
        text.getD "", file, now, false⟩ (decide (p = uid)), ?_, rfl, rfl⟩
    rw [hred]
    refine List.mem_filterMap.mpr ⟨p, hp, ?_⟩
    rw [hu]
    have hg : (u.online && truthy u.socketId) = true := by rw [ho, hs]; rfl
    simp only [hg, if_true]
  · intro e he
    rw [hred] at he
    obtain ⟨p, hp, hf⟩ := List.mem_filterMap.mp he
    refine ⟨p, hp, ?_⟩
    cases hu : st.users.get? p with
    | none => rw [hu] at hf; exact absurd hf (by simp)
    | some u =>
      rw [hu] at hf
      by_cases hg : (u.online && truthy u.socketId) = true
      · simp only [hg, if_true] at hf
        have he2 := (Option.some_inj.mp hf).symm
        obtain ⟨h1, h2⟩ := Bool.and_eq_true_iff.mp hg
        exact ⟨u, rfl, h1, h2, he2⟩
      · simp only [hg, if_false] at hf
        exact absurd hf (by simp)

/-- Concrete instantiation of `c2_send_message_fanout`: a 3-participant group
chat where `"c"` is offline; `"a"` sends the text `"hi"`. -/
theorem c2_send_message_fanout_witness :
    (∀ p, p ∈ (["a", "b", "c"] : List String) → ∀ u,
      (⟨[("a", ⟨"alice", "sa", true, 0⟩), ("b", ⟨"bob", "sb", true, 0⟩),
          ("c", ⟨"carol", "sc", false, 0⟩)], [("g", [])],
        [("g", ⟨["a", "b", "c"], "group", some "T", 0, some "a"⟩)]⟩ :
          ServerState).users.get? p = some u → u.online = true →
      truthy u.socketId = true →
      ∃ wm : WireMessage,
        (⟨Target.socket u.socketId, OutMsg.newMessage "g" wm⟩ : Emit)
          ∈ (step ⟨[("a", ⟨"alice", "sa", true, 0⟩), ("b", ⟨"bob", "sb", true, 0⟩),
              ("c", ⟨"carol", "sc", false, 0⟩)], [("g", [])],
              [("g", ⟨["a", "b", "c"], "group", some "T", 0, some "a"⟩)]⟩
              (some "a") "sa" 5 "m1" (.sendMessage "g" (some "hi") none)).2.2 ∧
        wm.sent = decide (p = "a") ∧ wm.senderId = "a") ∧
    (∀ e ∈ (step ⟨[("a", ⟨"alice", "sa", true, 0⟩), ("b", ⟨"bob", "sb", true, 0⟩),
          ("c", ⟨"carol", "sc", false, 0⟩)], [("g", [])],
          [("g", ⟨["a", "b", "c"], "group", some "T", 0, some "a"⟩)]⟩
          (some "a") "sa" 5 "m1" (.sendMessage "g" (some "hi") none)).2.2,
      ∃ p, p ∈ (["a", "b", "c"] : List String) ∧ ∃ u,
        (⟨[("a", ⟨"alice", "sa", true, 0⟩), ("b", ⟨"bob", "sb", true, 0⟩),
            ("c", ⟨"carol", "sc", false, 0⟩)], [("g", [])],
          [("g", ⟨["a", "b", "c"], "group", some "T", 0, some "a"⟩)]⟩ :
            ServerState).users.get? p = some u ∧ u.online = true ∧
        truthy u.socketId = true ∧
        e = ⟨Target.socket u.socketId,
              OutMsg.newMessage "g"
                (wireOf ⟨"m1", "g", "a", "alice", "hi", none, 5, false⟩ (p = "a"))⟩) :=
  c2_send_message_fanout
    ⟨[("a", ⟨"alice", "sa", true, 0⟩), ("b", ⟨"bob", "sb", true, 0⟩),
      ("c", ⟨"carol", "sc", false, 0⟩)], [("g", [])],
      [("g", ⟨["a", "b", "c"], "group", some "T", 0, some "a"⟩)]⟩
    (some "a") "sa" 5 "m1" "g" "a" ⟨["a", "b", "c"], "group", some "T", 0, some "a"⟩
    (some "hi") none rfl rfl (by decide) (by decide) (by decide)

/-- The `login` handler never touches the message or chat registries. -/
theorem handleLogin_state (st : ServerState) (sockId : String) (now : Nat)
    (fresh username : String) :
    ((handleLogin st sockId now fresh username).1.messages = st.messages) ∧
    ((handleLogin st sockId now fresh username).1.chats = st.chats) := by
  cases h : usernameLookupEntry st.users username with
  | none => simp [handleLogin, h]
  | some p =>
    obtain ⟨uid, u⟩ := p
    simp [handleLogin, h]

/-- The `disconnect` handler never touches the message or chat registries. -/
theorem handleDisconnect_state (st : ServerState) (sess : Option String) (sockId : String) :
    ((handleDisconnect st sess sockId).1.messages = st.messages) ∧
    ((handleDisconnect st sess sockId).1.chats = st.chats) := by
  unfold handleDisconnect
  cases h : sessTruthy sess with
  | none => simp
  | some uid =>
    cases hu : st.users.get? uid with
    | none => simp [hu]
    | some u => simp [hu]

/-- The `get-messages` handler never changes the state or the session binding. -/
theorem handleGetMessages_state (st : ServerState) (sess : Option String)
    (sockId chatId : String) :
    ((handleGetMessages st sess sockId chatId).1 = st) ∧
    ((handleGetMessages st sess sockId chatId).2.1 = sess) := by
  unfold handleGetMessages
  cases h : sessTruthy sess with
  | none => simp
  | some uid =>
    by_cases hc : chatId = ""
    · simp [hc]
    · cases hch : st.chats.get? chatId with
      | none => simp [hc, hch]
      | some chat =>
        by_cases hm : uid ∈ chat.participants <;> simp [hc, hch, hm]

/-- The `start-chat` handler either leaves the state unchanged or registers a chat under an
id not previously present and initializes that chat's message log empty. -/
theorem handleStartChat_state (st : ServerState) (sess : Option String)
    (sockId : String) (now : Nat) (target : String) :
    ((handleStartChat st sess sockId now target).1 = st) ∨
    (∃ cid chatval, st.chats.contains cid = false ∧
      ((handleStartChat st sess sockId now target).1.chats = st.chats.set cid chatval) ∧
      ((handleStartChat st sess sockId now target).1.messages = st.messages.set cid [])) := by
  unfold handleStartChat
  cases h : sessTruthy sess with
  | none => left; simp
  | some uid =>
    by_cases ht : target = ""
    · left; simp [ht]
    · by_cases hc : st.chats.contains (getChatId uid target) = true
      · left; simp [ht, hc]
      · right
        simp only [Bool.not_eq_true] at hc
        exact ⟨getChatId uid target, ⟨[uid, target], "private", none, now, none⟩, hc,
          by simp [ht, hc], by simp [ht, hc]⟩

/-- The `send-message` handler either leaves the state unchanged or, on an existing chat,
appends exactly one message at the end of that chat's log, leaving the chat
registry alone. -/
theorem handleSendMessage_state (st : ServerState) (sess : Option String) (now : Nat)
    (fresh chatId : String) (text : Option String) (file : Option FileData) :
    ((handleSendMessage st sess now fresh chatId text file).1 = st) ∨
    (st.chats.contains chatId = true ∧
     ((handleSendMessage st sess now fresh chatId text file).1.chats = st.chats) ∧
     ∃ m, (handleSendMessage st sess now fresh chatId text file).1.messages
        = st.messages.set chatId (msgsOf st chatId ++ [m])) := by
  unfold handleSendMessage
  cases h : sessTruthy sess with
  | none => left; simp
  | some uid =>
    by_cases hc : chatId = ""
    · left; simp [hc]
    · by_cases hp : (textTruthy text || file.isSome) = true
      · cases hch : st.chats.get? chatId with
        | none => left; simp [hc, hp, hch]
        | some chat =>
          by_cases hm : uid ∈ chat.participants
          · right
            refine ⟨?_, by simp [hc, hp, hch, hm], ?_⟩
            · rw [Store.contains_eq_isSome, hch]
              rfl
            · exact ⟨⟨fresh, chatId, uid,
                truthyOr ((st.users.get? uid).map (fun u => u.username)) "Unknown",
                text.getD "", file, now, false⟩, by simp [hc, hp, hch, hm, msgsOf]⟩
          · left; simp [hc, hp, hch, hm]
      · left; simp [hc, hp]

/-- The `create-group` handler either leaves the state unchanged or registers a chat under
the fresh id and initializes its message log empty. -/
theorem handleCreateGroup_state (st : ServerState) (sess : Option String) (now : Nat)
    (fresh name : String) (ids : List String) :
    ((handleCreateGroup st sess now fresh name ids).1 = st) ∨
    (∃ chatval, ((handleCreateGroup st sess now fresh name ids).1.chats
        = st.chats.set fresh chatval) ∧
      ((handleCreateGroup st sess now fresh name ids).1.messages
        = st.messages.set fresh [])) := by
  unfold handleCreateGroup
  cases h : sessTruthy sess with
  | none => left; simp
  | some uid =>
    by_cases hn : name = ""
    · left; simp [hn]
    · by_cases hi : ids = []
      · left; simp [hn, hi]
      · right
        exact ⟨⟨uid :: ids, "group", some name, now, some uid⟩,
          by simp [hn, hi], by simp [hn, hi]⟩

/-- Under the registry invariant, a chat id absent from the chat registry has
an empty (absent) message log. -/
theorem msgsOf_eq_nil_of_not_contains (st : ServerState) (c : String)
    (hinv : ∀ d, st.messages.contains d = true → st.chats.contains d = true)
    (h : st.chats.contains c = false) : msgsOf st c = [] := by
  have hm : st.messages.contains c = false := by
    cases hcm : st.messages.contains c
    · rfl
    · have := hinv c hcm
      rw [h] at this
      exact absurd this (by simp)
  rw [Store.contains_eq_isSome] at hm
  unfold msgsOf
  cases hg : st.messages.get? c with
  | none => rfl
  | some l => rw [hg] at hm; simp at hm

/-- C4: the message log is append-only and read order equals creation order.
Every event preserves the invariant that message logs exist only for
registered chats; every event extends each chat's log only at the end (the old
log is a prefix of the new one, witnessed by the appended tail); and a
`messages-loaded` reply lists exactly the stored log, in storage order, each
entry tagged `sent` relative to the caller.  `fresh` — the id `generateId()`
returns for this step — is assumed not to collide with a registered chat id. -/
theorem c4_message_log_append_only (st : ServerState) (sess : Option String)
    (sockId : String) (now : Nat) (fresh : String) (e : Event) (c : String)
    (hinv : ∀ d, st.messages.contains d = true → st.chats.contains d = true)
    (hfresh : st.chats.contains fresh = false) :
    (∀ d, (step st sess sockId now fresh e).1.messages.contains d = true →
        (step st sess sockId now fresh e).1.chats.contains d = true) ∧
    (∃ t, msgsOf (step st sess sockId now fresh e).1 c = msgsOf st c ++ t) ∧
    (∀ uid wms, sessTruthy sess = some uid → e = Event.getMessages c →
        (⟨Target.socket sockId, OutMsg.messagesLoaded c wms⟩ : Emit)
          ∈ (step st sess sockId now fresh e).2.2 →
        wms = (msgsOf st c).map (fun m => wireOf m (m.senderId = uid))) := by
  cases e with
  | login username =>
    simp only [step]
    obtain ⟨hm, hc2⟩ := handleLogin_state st sockId now fresh username
    refine ⟨?_, ⟨[], ?_⟩, fun uid wms _ heq _ => absurd heq (by simp)⟩
    · intro d hd
      rw [hm] at hd
      rw [hc2]
      exact hinv d hd
    · unfold msgsOf
      rw [hm]
      simp
  | getUsers =>
    simp only [step, handleGetUsers]
    exact ⟨hinv, ⟨[], by simp⟩, fun uid wms _ heq _ => absurd heq (by simp)⟩
  | startChat target =>
    simp only [step]
    rcases handleStartChat_state st sess sockId now target with hst |
      ⟨cid, chatval, hcid, hc2, hm2⟩
    · rw [hst]
      exact ⟨hinv, ⟨[], by simp⟩, fun uid wms _ heq _ => absurd heq (by simp)⟩
    · refine ⟨?_, ?_, fun uid wms _ heq _ => absurd heq (by simp)⟩
      · intro d hd
        rw [hm2] at hd
        rw [hc2]
        rcases (Store.contains_set _ _ _ _).mp hd with hdc | hdc
        · exact (Store.contains_set _ _ _ _).mpr (Or.inl hdc)
        · exact (Store.contains_set _ _ _ _).mpr (Or.inr (hinv d hdc))
      · by_cases hdc : cid = c
        · subst hdc
          refine ⟨[], ?_⟩
          rw [msgsOf_eq_nil_of_not_contains st cid hinv hcid]
          unfold msgsOf
          rw [hm2, Store.get?_set_self]
          rfl
        · refine ⟨[], ?_⟩
          unfold msgsOf
          rw [hm2, Store.get?_set_ne _ _ _ _ hdc]
          simp
  | sendMessage chatId text file =>
    simp only [step]
    rcases handleSendMessage_state st sess now fresh chatId text file with hst |
      ⟨hcont, hc2, m, hm2⟩
    · rw [hst]
      exact ⟨hinv, ⟨[], by simp⟩, fun uid wms _ heq _ => absurd heq (by simp)⟩
    · refine ⟨?_, ?_, fun uid wms _ heq _ => absurd heq (by simp)⟩
      · intro d hd
        rw [hm2] at hd
        rw [hc2]
        rcases (Store.contains_set _ _ _ _).mp hd with hdc | hdc
        · rw [← hdc]; exact hcont
        · exact hinv d hdc
      · by_cases hdc : chatId = c
        · subst hdc
          refine ⟨[m], ?_⟩
          unfold msgsOf
          rw [hm2, Store.get?_set_self]
          rfl
        · refine ⟨[], ?_⟩
          unfold msgsOf
          rw [hm2, Store.get?_set_ne _ _ _ _ hdc]
          simp
  | typing chatId isTyping =>
    simp only [step]
    rw [(handleTyping_preserves st sess chatId isTyping).1]
    exact ⟨hinv, ⟨[], by simp⟩, fun uid wms _ heq _ => absurd heq (by simp)⟩
  | createGroup name ids =>
    simp only [step]
    rcases handleCreateGroup_state st sess now fresh name ids with hst | ⟨chatval, hc2, hm2⟩
    · rw [hst]
      exact ⟨hinv, ⟨[], by simp⟩, fun uid wms _ heq _ => absurd heq (by simp)⟩
    · refine ⟨?_, ?_, fun uid wms _ heq _ => absurd heq (by simp)⟩
      · intro d hd
        rw [hm2] at hd
        rw [hc2]
        rcases (Store.contains_set _ _ _ _).mp hd with hdc | hdc
        · exact (Store.contains_set _ _ _ _).mpr (Or.inl hdc)
        · exact (Store.contains_set _ _ _ _).mpr (Or.inr (hinv d hdc))
      · by_cases hdc : fresh = c
        · subst hdc
          refine ⟨[], ?_⟩
          rw [msgsOf_eq_nil_of_not_contains st fresh hinv hfresh]
          unfold msgsOf
          rw [hm2, Store.get?_set_self]
          rfl
        · refine ⟨[], ?_⟩
          unfold msgsOf
          rw [hm2, Store.get?_set_ne _ _ _ _ hdc]
          simp
  | getMessages chatId =>
    simp only [step]
    obtain ⟨h1, _⟩ := handleGetMessages_state st sess sockId chatId
    refine ⟨by rw [h1]; exact hinv, ⟨[], by rw [h1]; simp⟩, ?_⟩
    intro uid wms hsess heq hmem
    injection heq with hcc
    subst hcc
    simp only [handleGetMessages, hsess] at hmem
    by_cases hc : chatId = ""
    · simp [hc] at hmem
    · cases hch : st.chats.get? chatId with
      | none => simp [hc, hch] at hmem
      | some chat =>
        by_cases hm : uid ∈ chat.participants
        · simp [hc, hch, hm] at hmem
          unfold msgsOf
          exact hmem
        · simp [hc, hch, hm] at hmem
  | disconnect =>
    simp only [step]
    obtain ⟨hm, hc2⟩ := handleDisconnect_state st sess sockId
    refine ⟨?_, ⟨[], ?_⟩, fun uid wms _ heq _ => absurd heq (by simp)⟩
    · intro d hd
      rw [hm] at hd
      rw [hc2]
      exact hinv d hd
    · unfold msgsOf
      rw [hm]
      simp

/-- Concrete instantiation of `c4_message_log_append_only`: participant `"a"`
reads chat `"a-b"` holding one stored message. -/
theorem c4_message_log_append_only_witness :
    (∀ d, (step ⟨[("a", ⟨"alice", "sa", true, 0⟩), ("b", ⟨"bob", "sb", true, 0⟩)],
        [("a-b", [⟨"m0", "a-b", "b", "bob", "yo", none, 1, false⟩])],
        [("a-b", ⟨["a", "b"], "private", none, 0, none⟩)]⟩
        (some "a") "sa" 9 "f7" (.getMessages "a-b")).1.messages.contains d = true →
      (step ⟨[("a", ⟨"alice", "sa", true, 0⟩), ("b", ⟨"bob", "sb", true, 0⟩)],
        [("a-b", [⟨"m0", "a-b", "b", "bob", "yo", none, 1, false⟩])],
        [("a-b", ⟨["a", "b"], "private", none, 0, none⟩)]⟩
        (some "a") "sa" 9 "f7" (.getMessages "a-b")).1.chats.contains d = true) ∧
    (∃ t, msgsOf (step ⟨[("a", ⟨"alice", "sa", true, 0⟩), ("b", ⟨"bob", "sb", true, 0⟩)],
        [("a-b", [⟨"m0", "a-b", "b", "bob", "yo", none, 1, false⟩])],
        [("a-b", ⟨["a", "b"], "private", none, 0, none⟩)]⟩
        (some "a") "sa" 9 "f7" (.getMessages "a-b")).1 "a-b"
      = msgsOf ⟨[("a", ⟨"alice", "sa", true, 0⟩), ("b", ⟨"bob", "sb", true, 0⟩)],
        [("a-b", [⟨"m0", "a-b", "b", "bob", "yo", none, 1, false⟩])],
        [("a-b", ⟨["a", "b"], "private", none, 0, none⟩)]⟩ "a-b" ++ t) ∧
    (∀ uid wms, sessTruthy (some "a") = some uid →
      Event.getMessages "a-b" = Event.getMessages "a-b" →
      (⟨Target.socket "sa", OutMsg.messagesLoaded "a-b" wms⟩ : Emit)
        ∈ (step ⟨[("a", ⟨"alice", "sa", true, 0⟩), ("b", ⟨"bob", "sb", true, 0⟩)],
          [("a-b", [⟨"m0", "a-b", "b", "bob", "yo", none, 1, false⟩])],
          [("a-b", ⟨["a", "b"], "private", none, 0, none⟩)]⟩
          (some "a") "sa" 9 "f7" (.getMessages "a-b")).2.2 →
      wms = (msgsOf ⟨[("a", ⟨"alice", "sa", true, 0⟩), ("b", ⟨"bob", "sb", true, 0⟩)],
          [("a-b", [⟨"m0", "a-b", "b", "bob", "yo", none, 1, false⟩])],
          [("a-b", ⟨["a", "b"], "private", none, 0, none⟩)]⟩ "a-b").map
        (fun m => wireOf m (m.senderId = uid))) :=
  c4_message_log_append_only
    ⟨[("a", ⟨"alice", "sa", true, 0⟩), ("b", ⟨"bob", "sb", true, 0⟩)],
      [("a-b", [⟨"m0", "a-b", "b", "bob", "yo", none, 1, false⟩])],
      [("a-b", ⟨["a", "b"], "private", none, 0, none⟩)]⟩
    (some "a") "sa" 9 "f7" (.getMessages "a-b") "a-b"
    (fun d hd => hd) (by decide)
